import Mathlib

/-!
Verification development for the `idf2svd` header-to-SVD converter.

The Rust sources are shallowly embedded:
* `src/lib.rs`: the replacement table (`REPLACEMENTS`/`normalize`), the
  base-address scanner (`add_base_addr`/`addBaseAddr`), and the per-line
  register-extraction state machine (`parse_idf`/`stepState`, `runFile`,
  `parseFile`, `parseIdf`).
* `src/main.rs`: the SVD assembly (`create_svd`/`toSvdPeripheral`,
  `createSvdPeripherals`).

Strings are `List Char`.  Machine integers are `Nat` with explicit
`% 2 ^ w` where wrap-around matters (release-mode semantics for the
arithmetic that would overflow-check in debug builds).  The `regex` crate
matchers are embedded by a small backtracking engine (`mtchF`) with
leftmost-first semantics, ordered alternation, greedy `+`/`*`/`?` and lazy
`*?`, exactly the constructs the eight patterns of the source use; the
engine takes a fuel argument so that it is structurally recursive (each
recursive call strictly decreases pattern-size + input-length, which is
far below the supplied fuel, so the fuel is never exhausted on any input).
-/

namespace Idf2Svd

set_option maxRecDepth 100000
set_option maxHeartbeats 2000000

/-- Rust `char::is_whitespace` restricted to the ASCII range used by the
`regex` crate's `\s` class on the header files (space, tab, LF, VT, FF, CR). -/
def isWs (c : Char) : Bool :=
  c = ' ' || c = '\t' || c = '\n' || c = '\r' || c = '\x0b' || c = '\x0c'

/-- Character class `[\s*]` of the source regexes. -/
def wsStar (c : Char) : Bool :=
  isWs c || c = '*'

/-- Character class `[^\s*]` of the source regexes. -/
def notWsStar (c : Char) : Bool :=
  !(isWs c || c = '*')

/-- Character class `.` (any character except a line feed). -/
def isDot (c : Char) : Bool :=
  c != '\n'

/-- Character class `[0-9]`. -/
def isDigitC (c : Char) : Bool :=
  c.isDigit

/-- Character class `[0-9a-fA-F]`. -/
def isHexDigitC (c : Char) : Bool :=
  c.isDigit || ('a' ≤ c && c ≤ 'f') || ('A' ≤ c && c ≤ 'F')

/-- Character class `[0-9A-Za-z_]`. -/
def isWordC (c : Char) : Bool :=
  c.isDigit || ('a' ≤ c && c ≤ 'z') || ('A' ≤ c && c ≤ 'Z') || c = '_'

/-- Value of a digit character in the given radix, as accepted by Rust's
`from_str_radix`. -/
def digitVal (radix : Nat) (c : Char) : Option Nat :=
  let v : Option Nat :=
    if c.isDigit then some (c.toNat - 48)
    else if 'a' ≤ c && c ≤ 'f' then some (c.toNat - 87)
    else if 'A' ≤ c && c ≤ 'F' then some (c.toNat - 55)
    else none
  match v with
  | some d => if d < radix then some d else none
  | none => none

/-- Accumulate the digits of `s` in the given radix. -/
def parseDigits (radix : Nat) : List Char → Nat → Option Nat
  | [], acc => some acc
  | c :: rest, acc =>
      match digitVal radix c with
      | some d => parseDigits radix rest (acc * radix + d)
      | none => none

/-- Digit part of `from_str_radix`: at least one digit, error on any
other character or on a value exceeding the type's maximum (`maxV`). -/
def parseUintCore (radix maxV : Nat) (s2 : List Char) : Option Nat :=
  match s2 with
  | [] => none
  | _ =>
      match parseDigits radix s2 0 with
      | some v => if v ≤ maxV then some v else none
      | none => none

/-- Rust `uN::from_str_radix`: an optional leading `+`, then digits. -/
def parseUint (radix maxV : Nat) (s : List Char) : Option Nat :=
  match s with
  | '+' :: t => parseUintCore radix maxV t
  | _ => parseUintCore radix maxV s

/-- Rust `u32::from_str_radix(s, 16)`. -/
def parseHexU32 (s : List Char) : Option Nat :=
  parseUint 16 4294967295 s

/-- Rust `u8::from_str_radix(s, 10)`. -/
def parseU8Dec (s : List Char) : Option Nat :=
  parseUint 10 255 s

/-- Rust `str::trim_start_matches("0x")`: strips every leading repetition
of `0x`. -/
def trimStart0x : List Char → List Char
  | '0' :: 'x' :: rest => trimStart0x rest
  | s => s

/-- Rust `u32::count_ones`, computed over the 32 binary digits (the fuel 32
covers every value below `2 ^ 32`). -/
def countOnesAux : Nat → Nat → Nat
  | 0, _ => 0
  | _, 0 => 0
  | fuel + 1, n => n % 2 + countOnesAux fuel (n / 2)

/-- Population count of a `u32` value. -/
def countOnes (n : Nat) : Nat :=
  countOnesAux 32 n

/-! ### A small regex engine

The eight patterns of `src/lib.rs` only use literals, the character classes
above, greedy `+` / `*` / `?`, lazy `*?`, ordered alternation and
non-nesting capture groups.  `Item` is the abstract syntax of one pattern
element; a pattern is a `List Item`. -/

/-- One element of a source regex. -/
inductive Item where
  | lit : List Char → Item
  | cls : (Char → Bool) → Item
  | plus : (Char → Bool) → Item
  | star : (Char → Bool) → Item
  | starL : (Char → Bool) → Item
  | opt : List Item → Item
  | alt2 : List Item → List Item → Item
  | grp : List Item → Item

/-- Backtracking matcher in continuation-passing style, with the
preference order of a leftmost-first regex engine: greedy repetition
consumes as much as possible first, lazy repetition as little as possible,
alternation tries the left branch first, `opt` tries to consume first.
`caps` accumulates the capture groups in order of completion (the source
patterns never nest groups, so this is textual order).  Each recursive
call strictly decreases pattern-size + input-length, so the fuel is never
exhausted when it exceeds that bound. -/
def mtchF {α : Type} : Nat → List Item → List Char → List (List Char) →
    (List Char → List (List Char) → Option α) → Option α
  | 0, _, _, _, _ => none
  | _ + 1, [], s, caps, k => k s caps
  | fuel + 1, Item.lit l :: rest, s, caps, k =>
      if l.isPrefixOf s then mtchF fuel rest (s.drop l.length) caps k else none
  | fuel + 1, Item.cls p :: rest, s, caps, k =>
      match s with
      | [] => none
      | c :: s2 => if p c then mtchF fuel rest s2 caps k else none
  | fuel + 1, Item.plus p :: rest, s, caps, k =>
      match s with
      | [] => none
      | c :: s2 => if p c then mtchF fuel (Item.star p :: rest) s2 caps k else none
  | fuel + 1, Item.star p :: rest, s, caps, k =>
      match s with
      | [] => mtchF fuel rest [] caps k
      | c :: s2 =>
          if p c then
            match mtchF fuel (Item.star p :: rest) s2 caps k with
            | some r => some r
            | none => mtchF fuel rest (c :: s2) caps k
          else mtchF fuel rest (c :: s2) caps k
  | fuel + 1, Item.starL p :: rest, s, caps, k =>
      (match mtchF fuel rest s caps k with
       | some r => some r
       | none =>
          match s with
          | [] => none
          | c :: s2 => if p c then mtchF fuel (Item.starL p :: rest) s2 caps k else none)
  | fuel + 1, Item.opt sub :: rest, s, caps, k =>
      (match mtchF fuel (sub ++ rest) s caps k with
       | some r => some r
       | none => mtchF fuel rest s caps k)
  | fuel + 1, Item.alt2 a b :: rest, s, caps, k =>
      (match mtchF fuel (a ++ rest) s caps k with
       | some r => some r
       | none => mtchF fuel (b ++ rest) s caps k)
  | fuel + 1, Item.grp sub :: rest, s, caps, k =>
      mtchF fuel sub s caps (fun s2 caps2 =>
        mtchF fuel rest s2 (caps2 ++ [s.take (s.length - s2.length)]) k)

/-- Fuel that amply covers pattern-size + input-length for every source
pattern (their sizes are below one hundred). -/
def mtchFuel (s : List Char) : Nat :=
  s.length + 1000

/-- Try to match a pattern at the start of `s`; return the captures and
the remaining input. -/
def matchHere (items : List Item) (s : List Char) :
    Option (List (List Char) × List Char) :=
  mtchF (mtchFuel s) items s [] (fun rest caps => some (caps, rest))

/-- `Regex::captures`: find the leftmost match and return its capture
groups. -/
def searchCaps (items : List Item) : List Char → Option (List (List Char))
  | [] =>
      match matchHere items [] with
      | some (caps, _) => some caps
      | none => none
  | c :: s2 =>
      match matchHere items (c :: s2) with
      | some (caps, _) => some caps
      | none => searchCaps items s2

/-- Leftmost match returning the captures and the input remaining after
the match (used to iterate matches). -/
def searchSplit (items : List Item) : List Char → Option (List (List Char) × List Char)
  | [] => matchHere items []
  | c :: s2 =>
      match matchHere items (c :: s2) with
      | some r => some r
      | none => searchSplit items s2

/-- Iterated non-overlapping matches (`Regex::captures_iter`).  Every
source pattern consumes at least the literal `#define`, so the fuel
`s.length + 1` is never exhausted. -/
def capturesIterAux (items : List Item) : Nat → List Char → List (List (List Char))
  | 0, _ => []
  | fuel + 1, s =>
      match searchSplit items s with
      | none => []
      | some (caps, rest) => caps :: capturesIterAux items fuel rest

/-- All capture-group lists of the non-overlapping matches of a pattern. -/
def capturesIter (items : List Item) (s : List Char) : List (List (List Char)) :=
  capturesIterAux items (s.length + 1) s

/-- Literal pattern element from a string literal. -/
def litS (s : String) : Item :=
  Item.lit s.data

/-! ### The eight source patterns -/

/-- `REG_BASE`:
`\#define[\s*]+(?:DR_REG|REG|PERIPHS)_(.*)_BASE(?:A?DDR)?[\s*]+0x([0-9a-fA-F]+)` -/
def reBaseItems : List Item :=
  [litS ("#define"), Item.plus wsStar,
   Item.alt2 [litS ("DR_REG_")] [Item.alt2 [litS ("REG_")] [litS ("PERIPHS_")]],
   Item.grp [Item.star isDot],
   litS ("_BASE"),
   Item.opt [Item.opt [litS ("A")], litS ("DDR")],
   Item.plus wsStar, litS ("0x"), Item.grp [Item.plus isHexDigitC]]

/-- `REG_DEF`:
`\#define[\s*]+(?:PERIPHS_)?([^\s*]+)_(?:REG|ADDRESS|U)[\s*]+\((?:DR_REG|REG|PERIPHS)_(.*)_BASE(?:A?DDR)? \+ (.*)\)` -/
def reDefItems : List Item :=
  [litS ("#define"), Item.plus wsStar, Item.opt [litS ("PERIPHS_")],
   Item.grp [Item.plus notWsStar], litS ("_"),
   Item.alt2 [litS ("REG")] [Item.alt2 [litS ("ADDRESS")] [litS ("U")]],
   Item.plus wsStar, litS ("("),
   Item.alt2 [litS ("DR_REG_")] [Item.alt2 [litS ("REG_")] [litS ("PERIPHS_")]],
   Item.grp [Item.star isDot], litS ("_BASE"),
   Item.opt [Item.opt [litS ("A")], litS ("DDR")],
   litS (" + "), Item.grp [Item.star isDot], litS (")")]

/-- `REG_DEF_OFFSET`:
`\#define[\s*]+(?:PERIPHS_)?([^\s*]+)_(?:ADDRESS|U)[\s*]+(?:0x)?([0-9a-fA-F]+)` -/
def reDefOffsetItems : List Item :=
  [litS ("#define"), Item.plus wsStar, Item.opt [litS ("PERIPHS_")],
   Item.grp [Item.plus notWsStar], litS ("_"),
   Item.alt2 [litS ("ADDRESS")] [litS ("U")],
   Item.plus wsStar, Item.opt [litS ("0x")], Item.grp [Item.plus isHexDigitC]]

/-- `REG_DEF_INDEX`:
`\#define[\s*]+(?:PERIPHS_)?([^\s*]+)_(?:REG|ADDRESS|U)\(i\)[\s*]+\((?:DR_REG|REG|PERIPHS)_([0-9A-Za-z_]+)_BASE(?:A?DDR)?[\s*]*\(i\) \+ (.*?)\)` -/
def reDefIndexItems : List Item :=
  [litS ("#define"), Item.plus wsStar, Item.opt [litS ("PERIPHS_")],
   Item.grp [Item.plus notWsStar], litS ("_"),
   Item.alt2 [litS ("REG")] [Item.alt2 [litS ("ADDRESS")] [litS ("U")]],
   litS ("(i)"), Item.plus wsStar, litS ("("),
   Item.alt2 [litS ("DR_REG_")] [Item.alt2 [litS ("REG_")] [litS ("PERIPHS_")]],
   Item.grp [Item.plus isWordC], litS ("_BASE"),
   Item.opt [Item.opt [litS ("A")], litS ("DDR")],
   Item.star wsStar, litS ("(i) + "), Item.grp [Item.starL isDot], litS (")")]

/-- `REG_DEFINE_MASK`:
`\#define[\s*]+(?:PERIPHS_)?([^\s*]+)[\s*]+\(?(0x[0-9a-fA-F]+|[0-9]+|\(?BIT\(?[0-9]+\)?)\)?\)?` -/
def reDefineMaskItems : List Item :=
  [litS ("#define"), Item.plus wsStar, Item.opt [litS ("PERIPHS_")],
   Item.grp [Item.plus notWsStar], Item.plus wsStar,
   Item.opt [litS ("(")],
   Item.grp [Item.alt2 [litS ("0x"), Item.plus isHexDigitC]
      [Item.alt2 [Item.plus isDigitC]
        [Item.opt [litS ("(")], litS ("BIT"), Item.opt [litS ("(")],
         Item.plus isDigitC, Item.opt [litS (")")]]]],
   Item.opt [litS (")")], Item.opt [litS (")")]]

/-- `REG_DEFINE_SHIFT`:
`\#define[\s*]+(?:PERIPHS_)?([^\s*]+)_(?:S|s)[\s*]+\(?(0x[0-9a-fA-F]+|[0-9]+)\)?` -/
def reDefineShiftItems : List Item :=
  [litS ("#define"), Item.plus wsStar, Item.opt [litS ("PERIPHS_")],
   Item.grp [Item.plus notWsStar], litS ("_"),
   Item.alt2 [litS ("S")] [litS ("s")],
   Item.plus wsStar, Item.opt [litS ("(")],
   Item.grp [Item.alt2 [litS ("0x"), Item.plus isHexDigitC] [Item.plus isDigitC]],
   Item.opt [litS (")")]]

/-- `REG_DEFINE_SKIP`:
`\#define[\s*]+(?:PERIPHS_)?([^\s*]+)_(?:M|V)[\s*]+(\(|0x)` -/
def reSkipItems : List Item :=
  [litS ("#define"), Item.plus wsStar, Item.opt [litS ("PERIPHS_")],
   Item.grp [Item.plus notWsStar], litS ("_"),
   Item.alt2 [litS ("M")] [litS ("V")],
   Item.plus wsStar, Item.grp [Item.alt2 [litS ("(")] [litS ("0x")]]]

/-- `SINGLE_BIT`: `BIT\(?([0-9]+)\)?` -/
def reSingleBitItems : List Item :=
  [litS ("BIT"), Item.opt [litS ("(")], Item.grp [Item.plus isDigitC],
   Item.opt [litS (")")]]

/-- `REG_IFDEF`: `#ifn?def.*` -/
def reIfdefItems : List Item :=
  [litS ("#if"), Item.opt [litS ("n")], litS ("def"), Item.star isDot]

/-- `REG_ENDIF`: `#endif` -/
def reEndifItems : List Item :=
  [litS ("#endif")]

/-! ### Capture adapters returning the groups each `parse_idf` branch reads -/

/-- `re_reg.captures(line)`: register name, peripheral name, offset text. -/
def regDefCaptures (line : List Char) : Option (List Char × List Char × List Char) :=
  match searchCaps reDefItems line with
  | some [a, b, c] => some (a, b, c)
  | _ => none

/-- `re_reg_index.captures(line)`: register name, peripheral name, offset text. -/
def regDefIndexCaptures (line : List Char) : Option (List Char × List Char × List Char) :=
  match searchCaps reDefIndexItems line with
  | some [a, b, c] => some (a, b, c)
  | _ => none

/-- `re_reg_offset.captures(line)`: register name, offset text. -/
def regDefOffsetCaptures (line : List Char) : Option (List Char × List Char) :=
  match searchCaps reDefOffsetItems line with
  | some [a, b] => some (a, b)
  | _ => none

/-- `re_reg_define.captures(line)`: define name, value text. -/
def regDefineCaptures (line : List Char) : Option (List Char × List Char) :=
  match searchCaps reDefineMaskItems line with
  | some [a, b] => some (a, b)
  | _ => none

/-- `re_reg_define_shift.captures(line)`: define name, value text. -/
def regDefineShiftCaptures (line : List Char) : Option (List Char × List Char) :=
  match searchCaps reDefineShiftItems line with
  | some [a, b] => some (a, b)
  | _ => none

/-- `re_single_bit.captures(value)`: the bit index text. -/
def singleBitCaptures (value : List Char) : Option (List Char) :=
  match searchCaps reSingleBitItems value with
  | some [a] => some a
  | _ => none

/-- `re_reg_skip.is_match(line)`. -/
def regSkipMatch (line : List Char) : Bool :=
  (searchCaps reSkipItems line).isSome

/-- `re_reg_offset.is_match(line)`. -/
def regDefOffsetMatch (line : List Char) : Bool :=
  (regDefOffsetCaptures line).isSome

/-- `re_reg_define.is_match(line)`. -/
def regDefineMatch (line : List Char) : Bool :=
  (regDefineCaptures line).isSome

/-- `re_reg_define_shift.is_match(line)`. -/
def regDefineShiftMatch (line : List Char) : Bool :=
  (regDefineShiftCaptures line).isSome

/-- `re_ifdef.is_match(line)`. -/
def ifdefMatch (line : List Char) : Bool :=
  (searchCaps reIfdefItems line).isSome

/-- `re_endif.is_match(line)`. -/
def endifMatch (line : List Char) : Bool :=
  (searchCaps reEndifItems line).isSome

/-! ### Text normalization (`REPLACEMENTS` and the replacement loop) -/

/-- Rust `str::replace`, char by char with a fuel equal to the input
length (each step consumes at least one character, so the fuel is exact):
replace every non-overlapping occurrence of `pat`, leftmost first, without
rescanning the replacement text. -/
def replaceAllAux (pat rep : List Char) : Nat → List Char → List Char
  | 0, s => s
  | _ + 1, [] => []
  | fuel + 1, c :: rest =>
      if !pat.isEmpty && pat.isPrefixOf (c :: rest) then
        rep ++ replaceAllAux pat rep fuel (rest.drop (pat.length - 1))
      else
        c :: replaceAllAux pat rep fuel rest

/-- Rust `str::replace(search, replace)` (all source patterns are
non-empty). -/
def replaceAll (pat rep s : List Char) : List Char :=
  replaceAllAux pat rep s.length s

/-- The `REPLACEMENTS` table of `src/lib.rs`. -/
def REPLACEMENTS : List (List Char × List Char) :=
  [(("PERIPHS_IO_MUX ").data, ("PERIPHS_IO_MUX_BASE ").data),
   (("SLC_CONF0").data, ("SLC_CONF0_REG").data),
   (("SLC_INT_RAW").data, ("SLC_INT_RAW_REG").data),
   (("SLC_INT_STATUS").data, ("SLC_INT_STATUS_REG").data),
   (("SLC_INT_ENA").data, ("SLC_INT_ENA_REG").data),
   (("SLC_INT_CLR").data, ("SLC_INT_CLR_REG").data),
   (("SLC_RX_STATUS").data, ("SLC_RX_STATUS_REG").data),
   (("SLC_RX_FIFO_PUSH").data, ("SLC_RX_FIFO_PUSH_REG").data),
   (("SLC_TX_STATUS").data, ("SLC_TX_STATUS_REG").data),
   (("SLC_TX_FIFO_POP").data, ("SLC_TX_FIFO_POP_REG").data),
   (("SLC_RX_LINK").data, ("SLC_RX_LINK_REG").data),
   (("RTC_STORE0").data, ("RTC_STORE0_REG").data),
   (("RTC_STATE1").data, ("RTC_STATE1_REG").data),
   (("RTC_STATE2").data, ("RTC_STATE2_REG").data)]

/-- The replacement loop of `parse_idf`: apply the substitutions of
`REPLACEMENTS` to the file text, in table order. -/
def normalize (s : List Char) : List Char :=
  REPLACEMENTS.foldl (fun acc pr => replaceAll pr.1 pr.2 acc) s

/-- Split a text into its lines; `\n` and `\r\n` terminate a line
(Rust `str::lines`), kept as the raw split with a sentinel empty tail. -/
def splitRaw : List Char → List (List Char)
  | [] => [[]]
  | '\r' :: '\n' :: rest => [] :: splitRaw rest
  | '\n' :: rest => [] :: splitRaw rest
  | c :: rest =>
      match splitRaw rest with
      | [] => [[c]]
      | l :: ls => (c :: l) :: ls

/-- Rust `str::lines`: the final line terminator is optional and produces
no trailing empty line. -/
def splitLines (s : List Char) : List (List Char) :=
  match s with
  | [] => []
  | _ =>
      match (splitRaw s).getLast? with
      | some [] => (splitRaw s).dropLast
      | _ => splitRaw s

/-! ### The data model of `src/lib.rs` -/

/-- `enum Bits { Single(u8), Range(RangeInclusive<u8>) }`; a range is its
two inclusive endpoints. -/
inductive Bits where
  | single : Nat → Bits
  | range : Nat → Nat → Bits
deriving DecidableEq

/-- `enum Type { ReadOnly, ReadWrite, WriteOnly }`. -/
inductive Access where
  | readOnly : Access
  | readWrite : Access
  | writeOnly : Access
deriving DecidableEq

/-- `struct BitField`. -/
structure BitField where
  name : List Char
  bits : Bits
  type_ : Access
  reset_value : Nat
  description : List Char
deriving DecidableEq

/-- `struct Register`. -/
structure Register where
  name : List Char
  address : Nat
  width : Nat
  description : List Char
  reset_value : Nat
  detailed_description : Option (List Char)
  bit_fields : List BitField
deriving DecidableEq

/-- `struct Peripheral`. -/
structure Peripheral where
  description : List Char
  address : Nat
  registers : List Register
deriving DecidableEq

/-- `Bits::default()`. -/
def defaultBits : Bits :=
  Bits.single 0

/-- `BitField::default()`. -/
def defaultBitField : BitField :=
  { name := [], bits := defaultBits, type_ := Access.readWrite,
    reset_value := 0, description := [] }

/-- `Register::default()`. -/
def defaultRegister : Register :=
  { name := [], address := 0, width := 0, description := [],
    reset_value := 0, detailed_description := none, bit_fields := [] }

/-- The peripheral registry `HashMap<String, Peripheral>`, as an
association list with unique keys (lookup takes the first binding; no
claim depends on iteration order). -/
abbrev Registry := List (List Char × Peripheral)

/-- `HashMap::get`. -/
def lookupR : Registry → List Char → Option Peripheral
  | [], _ => none
  | (k, p) :: rest, nm => if k = nm then some p else lookupR rest nm

/-- `HashMap::contains_key`. -/
def containsKey (regs : Registry) (nm : List Char) : Bool :=
  (lookupR regs nm).isSome

/-- `HashMap::get_mut` followed by `p.registers.push(reg)`. -/
def pushRegister : Registry → List Char → Register → Registry
  | [], _, _ => []
  | (k, p) :: rest, nm, r =>
      if k = nm then (k, { p with registers := p.registers ++ [r] }) :: rest
      else (k, p) :: pushRegister rest nm r

/-! ### `add_base_addr` -/

/-- The pairs `(captures[1], captures[2])` of the `REG_BASE` matches. -/
def baseCaptures (text : List Char) : List (List Char × List Char) :=
  (capturesIter reBaseItems text).filterMap (fun caps =>
    match caps with
    | [a, b] => some (a, b)
    | _ => none)

/-- The loop body of `add_base_addr` over the matches: parse the address
(`unwrap` panics, modelled as `none`), then insert the peripheral only if
its name is not yet present. -/
def foldBase : List (List Char × List Char) → Registry → Option Registry
  | [], regs => some regs
  | (nm, ad) :: rest, regs =>
      match parseHexU32 ad with
      | none => none
      | some addr =>
          if containsKey regs nm then foldBase rest regs
          else foldBase rest
            (regs ++ [(nm, { description := nm, address := addr, registers := [] })])

/-- `add_base_addr(header, peripherals)`; `none` models the `unwrap`
panic on an address that does not fit a `u32`. -/
def addBaseAddr (text : List Char) (regs : Registry) : Option Registry :=
  foldBase (baseCaptures text) regs

/-! ### The extraction state machine -/

/-- `enum State` of `src/lib.rs`. -/
inductive State where
  | findReg : State
  | findBitFieldMask : List Char → Register → State
  | findBitFieldShift : List Char → Register → Nat → State
  | findBitFieldSkipShift : List Char → Register → State
  | assumeFullRegister : List Char → Register → State
  | checkEnd : List Char → Register → State
  | regEnd : List Char → Register → State
deriving DecidableEq

/-- The mutable context of `parse_idf`: the registry and the diagnostic
collections, plus the per-file `something_found` flag. -/
structure Ctx where
  peripherals : Registry
  invalid_peripherals : List (List Char)
  invalid_registers : List (List Char)
  invalid_files : List (List Char)
  something_found : Bool
deriving DecidableEq

/-- Outcome of one dispatch of the inner `loop` on the current line:
`next` is `break` (the line is consumed), `redo` re-dispatches the same
line in the new state. -/
inductive StepRes where
  | next : State → Ctx → StepRes
  | redo : State → Ctx → StepRes
deriving DecidableEq

/-- `match mask.count_ones() { 1 => Single(shift), bits =>
Range(shift..=shift + (bits - 1) as u8) }` with the release-mode wrapping
of `bits - 1` in `u32` and of the cast and addition in `u8`. -/
def mkShiftBits (mask shift : Nat) : Bits :=
  match countOnes mask with
  | 1 => Bits.single shift
  | bits => Bits.range shift ((shift + (bits + 4294967295) % 4294967296 % 256) % 256)

/-- The full-width field synthesized by `State::AssumeFullRegister`. -/
def assumeFullRegisterField : BitField :=
  { defaultBitField with name := ("Register").data, bits := Bits.range 0 31 }

/-- `split('_').next().unwrap()`. -/
def firstToken (s : List Char) : List Char :=
  s.takeWhile (fun c => c != '_')

/-- One arm of the `match state` inside the inner `loop` of `parse_idf`,
for the current line. -/
def stepState (st : State) (ctx : Ctx) (line : List Char) : StepRes :=
  match st with
  | State.findReg =>
      match regDefCaptures line with
      | some (regName, pname, offset0) =>
          if (("(i)").data).isSuffixOf regName then
            StepRes.next State.findReg
              { ctx with invalid_registers := ctx.invalid_registers ++ [regName] }
          else
            match parseHexU32 (trimStart0x offset0) with
            | some addr =>
                StepRes.next
                  (State.findBitFieldMask pname
                    { defaultRegister with
                      description := regName,
                      name := regName,
                      address := addr }) ctx
            | none =>
                StepRes.next State.findReg
                  { ctx with invalid_registers := ctx.invalid_registers ++ [regName] }
      | none =>
      match regDefIndexCaptures line with
      | some (regName, pname, offset0) =>
          match parseHexU32 (trimStart0x offset0) with
          | some addr =>
              StepRes.next
                (State.findBitFieldMask pname
                  { defaultRegister with
                    name := regName,
                    description := regName,
                    address := addr }) ctx
          | none =>
              StepRes.next State.findReg
                { ctx with invalid_registers := ctx.invalid_registers ++ [regName] }
      | none =>
      match regDefOffsetCaptures line with
      | some (regName, offset0) =>
          match parseHexU32 offset0 with
          | some addr =>
              StepRes.next
                (State.findBitFieldMask (firstToken regName)
                  { defaultRegister with
                    name := regName,
                    description := regName,
                    address := addr }) ctx
          | none =>
              StepRes.next State.findReg
                { ctx with invalid_registers := ctx.invalid_registers ++ [regName] }
      | none => StepRes.next State.findReg ctx
  | State.assumeFullRegister pname reg =>
      let reg2 := { reg with bit_fields := reg.bit_fields ++ [assumeFullRegisterField] }
      let ctx2 := { ctx with something_found := true }
      if containsKey ctx2.peripherals pname then
        StepRes.redo State.findReg
          { ctx2 with peripherals := pushRegister ctx2.peripherals pname reg2 }
      else
        StepRes.redo State.findReg
          { ctx2 with invalid_peripherals := ctx2.invalid_peripherals ++ [pname] }
  | State.findBitFieldMask pname reg =>
      if regSkipMatch line then StepRes.next (State.findBitFieldMask pname reg) ctx
      else if regDefOffsetMatch line then
        StepRes.redo (State.assumeFullRegister pname reg) ctx
      else
        match regDefineCaptures line with
        | some (defineName, value0) =>
            let ctx2 := { ctx with something_found := true }
            let value := trimStart0x value0
            match singleBitCaptures value with
            | some bitStr =>
                match parseU8Dec bitStr with
                | some maskBit =>
                    StepRes.next
                      (State.findBitFieldSkipShift pname
                        { reg with
                          bit_fields := reg.bit_fields ++
                            [{ defaultBitField with
                               name := defineName,
                               bits := Bits.single maskBit }] }) ctx2
                | none => StepRes.next State.findReg ctx2
            | none =>
                match parseHexU32 value with
                | some mask =>
                    StepRes.next (State.findBitFieldShift pname reg mask) ctx2
                | none => StepRes.next (State.findBitFieldMask pname reg) ctx2
        | none =>
            if reg.bit_fields.isEmpty then
              StepRes.redo (State.assumeFullRegister pname reg) ctx
            else
              StepRes.next (State.regEnd pname reg) ctx
  | State.findBitFieldShift pname reg mask =>
      if regSkipMatch line then
        StepRes.next (State.findBitFieldShift pname reg mask) ctx
      else
        match regDefineShiftCaptures line with
        | some (defineName, value) =>
            match parseU8Dec value with
            | some shift =>
                StepRes.next
                  (State.checkEnd pname
                    { reg with
                      bit_fields := reg.bit_fields ++
                        [{ defaultBitField with
                           name := defineName,
                           bits := mkShiftBits mask shift }] }) ctx
            | none => StepRes.next (State.findBitFieldShift pname reg mask) ctx
        | none =>
            if reg.bit_fields.isEmpty then
              StepRes.redo (State.assumeFullRegister pname reg) ctx
            else
              StepRes.next (State.regEnd pname reg) ctx
  | State.findBitFieldSkipShift pname reg =>
      if regDefineShiftMatch line then StepRes.next (State.checkEnd pname reg) ctx
      else StepRes.redo (State.checkEnd pname reg) ctx
  | State.checkEnd pname reg =>
      if line.isEmpty then StepRes.next (State.regEnd pname reg) ctx
      else if regDefineMatch line then
        StepRes.redo (State.findBitFieldMask pname reg) ctx
      else StepRes.next (State.checkEnd pname reg) ctx
  | State.regEnd pname reg =>
      if containsKey ctx.peripherals pname then
        StepRes.redo State.findReg
          { ctx with peripherals := pushRegister ctx.peripherals pname reg }
      else
        StepRes.redo State.findReg
          { ctx with invalid_peripherals := ctx.invalid_peripherals ++ [pname] }

/-- The inner `loop` of `parse_idf`: dispatch the current line until an
arm `break`s.  Every `redo` transition strictly decreases a rank bounded
by 4 (SkipShift → CheckEnd → FindBitFieldMask → AssumeFullRegister →
FindReg, which always consumes), so 8 units of fuel are never exhausted. -/
def runLineAux : Nat → State → Ctx → List Char → State × Ctx
  | 0, st, ctx, _ => (st, ctx)
  | fuel + 1, st, ctx, line =>
      match stepState st ctx line with
      | StepRes.next st2 ctx2 => (st2, ctx2)
      | StepRes.redo st2 ctx2 => runLineAux fuel st2 ctx2 line

/-- Process one line to completion. -/
def runLine (st : State) (ctx : Ctx) (line : List Char) : State × Ctx :=
  runLineAux 8 st ctx line

/-- One iteration of the `for (i, line) in file_data.lines().enumerate()`
loop: `#ifdef`-shaped and `#endif`-shaped lines are skipped outright,
every other line is dispatched through the state machine. -/
def runFileStep (p : State × Ctx) (line : List Char) : State × Ctx :=
  if ifdefMatch line then p
  else if endifMatch line then p
  else runLine p.1 p.2 line

/-- The per-file line loop of `parse_idf`. -/
def runFile (lines : List (List Char)) (st : State) (ctx : Ctx) : State × Ctx :=
  lines.foldl runFileStep (st, ctx)

/-- The body of the per-file closure of `parse_idf`: apply the
replacements, scan base addresses (`unwrap` panic modelled as `none`),
run the state machine from `State::FindReg` over the lines, and record
the file in `invalid_files` when nothing matched.  The final machine
state is dropped. -/
def parseFile (fname text : List Char) (ctx : Ctx) : Option Ctx :=
  match addBaseAddr (normalize text) ctx.peripherals with
  | none => none
  | some regs =>
      let ctx2 := (runFile (splitLines (normalize text)) State.findReg
        { ctx with
          peripherals := regs,
          something_found := false }).2
      some (if ctx2.something_found then ctx2
            else { ctx2 with invalid_files := ctx2.invalid_files ++ [fname] })

/-- Processing of one candidate file inside the `for_each`: a file is
only examined when every earlier file was processed without a panic. -/
def parseFilesStep (acc : Option Ctx) (pr : List Char × List Char) : Option Ctx :=
  match acc with
  | none => none
  | some c => parseFile pr.1 pr.2 c

/-- `parse_idf`: seed the registry from the principal header (read raw,
without replacements), then process each candidate file in order (the
interrupt extraction touches neither the registry nor the diagnostics and
is omitted). -/
def parseIdf (socText : List Char) (files : List (List Char × List Char)) :
    Option Ctx :=
  match addBaseAddr socText [] with
  | none => none
  | some regs =>
      files.foldl parseFilesStep
        (some { peripherals := regs,
                invalid_peripherals := [],
                invalid_registers := [],
                invalid_files := [],
                something_found := false })

/-! ### The SVD assembly of `src/main.rs` (`create_svd`) -/

/-- `BitRange` with `BitRangeType::OffsetWidth`. -/
structure SvdBitRange where
  offset : Nat
  width : Nat
deriving DecidableEq

/-- The `FieldInfo` fields populated by `create_svd`. -/
structure SvdField where
  name : List Char
  description : Option (List Char)
  bitRange : SvdBitRange
deriving DecidableEq

/-- The `RegisterInfo` fields populated by `create_svd`. -/
structure SvdRegisterInfo where
  name : List Char
  description : Option (List Char)
  addressOffset : Nat
  size : Option Nat
  resetValue : Option Nat
  fields : List SvdField
deriving DecidableEq

/-- `AddressBlock`. -/
structure SvdAddressBlock where
  offset : Nat
  size : Nat
  usage : List Char
deriving DecidableEq

/-- The `Peripheral` descriptor built by `create_svd`. -/
structure SvdPeripheral where
  name : List Char
  baseAddress : Nat
  addressBlock : SvdAddressBlock
  registers : List SvdRegisterInfo
deriving DecidableEq

/-- Rust `str::trim` (ASCII whitespace on these inputs). -/
def trimChars (s : List Char) : List Char :=
  ((s.dropWhile (fun c => isWs c)).reverse.dropWhile (fun c => isWs c)).reverse

/-- The field loop of `create_svd`: empty-after-trim descriptions become
`None`; a single bit becomes offset `b`, width 1; an inclusive range
becomes offset `start`, width `end - start + 1` (`u8` arithmetic,
release-mode wrap). -/
def toSvdField (f : BitField) : SvdField :=
  { name := f.name,
    description := if (trimChars f.description).isEmpty then none
                   else some f.description,
    bitRange :=
      match f.bits with
      | Bits.single b => { offset := b, width := 1 }
      | Bits.range s e => { offset := s, width := ((e + 256 - s) % 256 + 1) % 256 } }

/-- The register loop of `create_svd`: size is fixed at 32, the reset
value is truncated to `u32`. -/
def toSvdRegister (r : Register) : SvdRegisterInfo :=
  { name := r.name,
    description := some r.description,
    addressOffset := r.address,
    size := some 32,
    resetValue := some (r.reset_value % 4294967296),
    fields := r.bit_fields.map toSvdField }

/-- The `block_size` fold of `create_svd`: the flat sum of the serialized
registers' sizes (`r.size.unwrap()`; the size is always populated). -/
def blockSize (regs : List SvdRegisterInfo) : Nat :=
  regs.foldl (fun sum r => sum + r.size.getD 0) 0

/-- One output peripheral of `create_svd`: base address, serialized
registers, and an address block at offset 0 sized by `blockSize`. -/
def toSvdPeripheral (name : List Char) (p : Peripheral) : SvdPeripheral :=
  { name := name,
    baseAddress := p.address,
    addressBlock := { offset := 0,
                      size := blockSize (p.registers.map toSvdRegister),
                      usage := ("registers").data },
    registers := p.registers.map toSvdRegister }

/-- Byte-wise lexicographic order on names (Rust `String` `Ord`). -/
def nameLe : List Char → List Char → Bool
  | [], _ => true
  | _ :: _, [] => false
  | a :: xs, b :: ys => if a = b then nameLe xs ys else decide (a < b)

/-- Insert into a name-sorted list (stable). -/
def insertSorted (q : SvdPeripheral) : List SvdPeripheral → List SvdPeripheral
  | [] => [q]
  | x :: xs => if nameLe q.name x.name then q :: x :: xs else x :: insertSorted q xs

/-- `svd_peripherals.sort_by(|a, b| a.name.cmp(&b.name))`. -/
def sortByName : List SvdPeripheral → List SvdPeripheral
  | [] => []
  | x :: xs => insertSorted x (sortByName xs)

/-- The peripheral list of the output document: every registry entry
serialized, then sorted by name. -/
def createSvdPeripherals (regs : Registry) : List SvdPeripheral :=
  sortByName (regs.map (fun pr => toSvdPeripheral pr.1 pr.2))

/-! ### Specification predicates (from the spec's words, for the claims) -/

/-- Spec: a range's start does not exceed its end. -/
def bitsOrdered : Bits → Bool
  | Bits.single _ => true
  | Bits.range s e => decide (s ≤ e)

/-- Spec: every endpoint (or the single bit index) is at most `n`. -/
def bitsLe (n : Nat) : Bits → Bool
  | Bits.single b => decide (b ≤ n)
  | Bits.range s e => decide (s ≤ n) && decide (e ≤ n)

/-- The spec's BitField invariant: start at most end, endpoints within
0 to 31. -/
def bitsInvariant (b : Bits) : Bool :=
  bitsOrdered b && bitsLe 31 b

/-- Substring occurrence test (used to phrase which strings the
replacement table leaves untouched). -/
def hasInfix (pat : List Char) : List Char → Bool
  | [] => pat.isPrefixOf []
  | c :: rest => pat.isPrefixOf (c :: rest) || hasInfix pat rest

/-- Address carried by the first `REG_BASE` capture with the given
peripheral name. -/
def firstCapAddr : List (List Char × List Char) → List Char → Option Nat
  | [], _ => none
  | (n, ad) :: rest, nm => if n = nm then parseHexU32 ad else firstCapAddr rest nm

/-- Every register of every peripheral of the registry carries at least
one bit field. -/
def goodRegs (regs : Registry) : Prop :=
  ∀ pr ∈ regs, ∀ r ∈ pr.2.registers, r.bit_fields ≠ []

/-- The machine-state invariant backing the register-nonemptiness claim:
the three states that can reach `State::End` without adding a field only
hold registers that already carry one. -/
def goodState : State → Prop
  | State.findBitFieldSkipShift _ r => r.bit_fields ≠ []
  | State.checkEnd _ r => r.bit_fields ≠ []
  | State.regEnd _ r => r.bit_fields ≠ []
  | _ => True

/-- State component of a dispatch outcome. -/
def StepRes.st : StepRes → State
  | StepRes.next s _ => s
  | StepRes.redo s _ => s

/-- Context component of a dispatch outcome. -/
def StepRes.cx : StepRes → Ctx
  | StepRes.next _ c => c
  | StepRes.redo _ c => c

/-! ### Concrete inputs used by the counterexamples and witnesses -/

/-- The all-empty starting context. -/
def emptyCtx : Ctx :=
  { peripherals := [], invalid_peripherals := [], invalid_registers := [],
    invalid_files := [], something_found := false }

/-- A file whose first register definition carries a hexadecimal offset
too large for `u32`, followed by a well-formed base address and register. -/
def c2File : List Char :=
  ("#define FOO_REG (DR_REG_FOO_BASE + 0xFFFFFFFFF)\n#define DR_REG_BAR_BASE 0x60000000\n#define BAR_CFG_REG (DR_REG_BAR_BASE + 0x4)\n\n").data

/-- The register extracted from the well-formed tail of `c2File`. -/
def c2BarRegister : Register :=
  { defaultRegister with
    name := ("BAR_CFG").data,
    description := ("BAR_CFG").data,
    address := 4,
    bit_fields := [assumeFullRegisterField] }

/-- The context produced by processing `c2File` from the empty context. -/
def c2OutCtx : Ctx :=
  { peripherals :=
      [(("BAR").data,
        { description := ("BAR").data, address := 1610612736,
          registers := [c2BarRegister] })],
    invalid_peripherals := [],
    invalid_registers := [("FOO").data],
    invalid_files := [],
    something_found := true }

/-- A context seeded with one peripheral `FOO` at `0x100`. -/
def c4SeedCtx : Ctx :=
  { emptyCtx with
    peripherals :=
      [(("FOO").data,
        { description := ("FOO").data, address := 256, registers := [] })] }

/-- A register followed by a single-bit field macro `BIT(200)` and two
blank lines. -/
def c4Lines : List (List Char) :=
  [("#define FOO_REG (DR_REG_FOO_BASE + 0x0)").data,
   ("#define FOO_F (BIT(200))").data,
   [],
   []]

/-- The bit field the machine builds from `#define FOO_F (BIT(200))`. -/
def c4Field : BitField :=
  { defaultBitField with name := ("FOO_F").data, bits := Bits.single 200 }

/-- The register finalized from `c4Lines`. -/
def c4Register : Register :=
  { defaultRegister with
    name := ("FOO").data,
    description := ("FOO").data,
    bit_fields := [c4Field] }

/-- Registry holding `FOO` at `0x60000200`, as seeded from a first file. -/
def c7SeedRegs : Registry :=
  [(("FOO").data,
    { description := ("FOO").data, address := 1610613248, registers := [] })]

/-- A second file that defines a different base address for `FOO`. -/
def c7FileB : List Char :=
  ("#define DR_REG_FOO_BASE 0x12345678\n").data

/-- A registry with one peripheral holding two registers. -/
def c8Registry : Registry :=
  [(("AAA").data,
    { description := ("AAA").data, address := 0,
      registers := [defaultRegister, defaultRegister] })]

/-- Its serialized output peripheral. -/
def c8Peripheral : SvdPeripheral :=
  toSvdPeripheral (("AAA").data)
    { description := ("AAA").data, address := 0,
      registers := [defaultRegister, defaultRegister] }

/-- Principal header seeding `FOO` and `BAZ`. -/
def c9SocText : List Char :=
  ("#define DR_REG_FOO_BASE 0x100\n#define DR_REG_BAZ_BASE 0x200\n").data

/-- A file that ends with a register still being accumulated (one
single-bit field, no blank line before the end of the file). -/
def c9FileA : List Char :=
  ("#define FOO_CTRL_REG (DR_REG_FOO_BASE + 0x4)\n#define FOO_CTRL_EN (BIT(1))").data

/-- A second file with a full-register definition. -/
def c9FileB : List Char :=
  ("#define BAZ_CFG_REG (DR_REG_BAZ_BASE + 0x8)\n\n").data

/-- The registry context right after base-address scanning of `c9FileA`. -/
def c9SeedCtx : Ctx :=
  { emptyCtx with
    peripherals :=
      [(("FOO").data,
        { description := ("FOO").data, address := 256, registers := [] }),
       (("BAZ").data,
        { description := ("BAZ").data, address := 512, registers := [] })] }

/-- The register that is still in flight when `c9FileA` runs out of
lines. -/
def c9Inflight : Register :=
  { defaultRegister with
    name := ("FOO_CTRL").data,
    description := ("FOO_CTRL").data,
    address := 4,
    bit_fields := [{ defaultBitField with
                     name := ("FOO_CTRL_EN").data,
                     bits := Bits.single 1 }] }

/-- The register extracted from `c9FileB`. -/
def c9BazRegister : Register :=
  { defaultRegister with
    name := ("BAZ_CFG").data,
    description := ("BAZ_CFG").data,
    address := 8,
    bit_fields := [assumeFullRegisterField] }

/-- The final context of the two-file run: the in-flight register of
`c9FileA` appears nowhere, the register of `c9FileB` is attached. -/
def c9OutCtx : Ctx :=
  { peripherals :=
      [(("FOO").data,
        { description := ("FOO").data, address := 256, registers := [] }),
       (("BAZ").data,
        { description := ("BAZ").data, address := 512,
          registers := [c9BazRegister] })],
    invalid_peripherals := [],
    invalid_registers := [],
    invalid_files := [],
    something_found := true }

/-- Principal header seeding `QUX`. -/
def c10Soc : List Char :=
  ("#define DR_REG_QUX_BASE 0x40\n").data

/-- A file with one full-width register for `QUX`. -/
def c10File : List Char :=
  ("#define QUX_CTL_REG (DR_REG_QUX_BASE + 0xc)\n\n").data

/-- The register extracted from `c10File`. -/
def c10Register : Register :=
  { defaultRegister with
    name := ("QUX_CTL").data,
    description := ("QUX_CTL").data,
    address := 12,
    bit_fields := [assumeFullRegisterField] }

/-- The peripheral of the `c10Soc`/`c10File` run. -/
def c10Peripheral : Peripheral :=
  { description := ("QUX").data, address := 64, registers := [c10Register] }

/-- The final context of the `c10Soc`/`c10File` run. -/
def c10OutCtx : Ctx :=
  { peripherals := [(("QUX").data, c10Peripheral)],
    invalid_peripherals := [],
    invalid_registers := [],
    invalid_files := [],
    something_found := true }

/-! ## Helper lemmas -/

/-- A successful digit parse never exceeds the type maximum. -/
theorem parseUintCore_le (radix maxV : Nat) (s2 : List Char) (b : Nat)
    (h : parseUintCore radix maxV s2 = some b) : b ≤ maxV := by
  unfold parseUintCore at h
  split at h
  · exact absurd h (by simp)
  · split at h
    · split at h
      · cases h; assumption
      · exact absurd h (by simp)
    · exact absurd h (by simp)

/-- A successful `from_str_radix` never exceeds the type maximum. -/
theorem parseUint_le (radix maxV : Nat) (s : List Char) (b : Nat)
    (h : parseUint radix maxV s = some b) : b ≤ maxV := by
  unfold parseUint at h
  split at h
  · exact parseUintCore_le _ _ _ _ h
  · exact parseUintCore_le _ _ _ _ h

/-- `str::replace` leaves a string without occurrences of the pattern
unchanged, for any fuel. -/
theorem replaceAllAux_id (pat rep : List Char) :
    ∀ fuel s, hasInfix pat s = false → replaceAllAux pat rep fuel s = s := by
  intro fuel
  induction fuel with
  | zero => intro s _; rfl
  | succ n ih =>
    intro s h
    cases s with
    | nil => rfl
    | cons c rest =>
      rw [hasInfix, Bool.or_eq_false_iff] at h
      rw [replaceAllAux, if_neg (by simp [h.1]), ih rest h.2]

/-- `str::replace` leaves a string without occurrences of the pattern
unchanged. -/
theorem replaceAll_id (pat rep s : List Char) (h : hasInfix pat s = false) :
    replaceAll pat rep s = s :=
  replaceAllAux_id pat rep s.length s h

/-- Folding the replacement loop over a string free of every search
pattern changes nothing. -/
theorem foldl_replace_id :
    ∀ (prs : List (List Char × List Char)) (s : List Char),
      (∀ pr ∈ prs, hasInfix pr.1 s = false) →
      prs.foldl (fun acc pr => replaceAll pr.1 pr.2 acc) s = s := by
  intro prs
  induction prs with
  | nil => intro s _; rfl
  | cons p rest ih =>
    intro s h
    rw [List.foldl_cons, replaceAll_id _ _ _ (h p (by simp))]
    exact ih s (fun pr hm => h pr (by simp [hm]))

/-- Closed form of the shift-branch bit computation when the mask has at
least one set bit and the top of the range fits in a `u8`. -/
theorem mkShiftBits_eq (mask shift : Nat) (h1 : 0 < countOnes mask)
    (h2 : shift + countOnes mask - 1 ≤ 255) :
    mkShiftBits mask shift =
      if countOnes mask = 1 then Bits.single shift
      else Bits.range shift (shift + countOnes mask - 1) := by
  cases hc : countOnes mask with
  | zero => rw [hc] at h1; exact absurd h1 (by omega)
  | succ m =>
    cases m with
    | zero => simp [mkShiftBits, hc]
    | succ n =>
      rw [hc] at h2
      simp only [mkShiftBits, hc]
      rw [if_neg (by omega)]
      have e1 : (shift + (n + 1 + 1 + 4294967295) % 4294967296 % 256) % 256 =
          shift + (n + 1 + 1) - 1 := by omega
      rw [e1]

/-! ## Claim C3 -/

/-- C3, counterexample: the replacement list is not idempotent.  The pair
`("SLC_CONF0", "SLC_CONF0_REG")` rewrites its own output, so a second
application of `normalize` to `"SLC_CONF0"` appends a second `_REG`. -/
theorem c3_normalize_not_idempotent :
    normalize (normalize (("SLC_CONF0").data)) ≠ normalize (("SLC_CONF0").data) ∧
    normalize (normalize (("SLC_CONF0").data)) = ("SLC_CONF0_REG_REG").data := by
  constructor
  · decide
  · decide

/-- C3, amended: applying the ordered substitution list to a string in
which no search pattern occurs changes nothing, so on such strings a
second application yields the same result as one.  (Idempotence fails in
general: see the counterexample.) -/
theorem c3_normalize_id_on_pattern_free (s : List Char)
    (h : ∀ pr ∈ REPLACEMENTS, hasInfix pr.1 s = false) :
    normalize s = s ∧ normalize (normalize s) = normalize s := by
  have h1 : normalize s = s := foldl_replace_id REPLACEMENTS s h
  exact ⟨h1, by rw [h1]; exact h1⟩

/-- C3, witness: a typical header line free of the search patterns. -/
theorem c3_normalize_id_witness :
    normalize (("#define GPIO_OUT 0x3").data) = ("#define GPIO_OUT 0x3").data ∧
    normalize (normalize (("#define GPIO_OUT 0x3").data)) =
      normalize (("#define GPIO_OUT 0x3").data) :=
  c3_normalize_id_on_pattern_free (("#define GPIO_OUT 0x3").data) (by decide)

/-! ## Claim C5 -/

/-- C5: in `State::FindBitFieldShift` holding mask `m`, a matched shift
constant with a parsed `u8` value `s` appends a BitField whose bits are
the single bit `s` when `m` has exactly one set bit, and otherwise the
inclusive range from `s` to `s + popcount m - 1` (the hypotheses say the
mask is non-zero and the range top fits in a `u8`, which is what the
machine arithmetic presumes), and moves to `State::CheckEnd` consuming
the line. -/
theorem c5_shift_branch (pname : List Char) (reg : Register) (mask : Nat)
    (ctx : Ctx) (line nm val : List Char) (shift : Nat)
    (hskip : regSkipMatch line = false)
    (hcap : regDefineShiftCaptures line = some (nm, val))
    (hval : parseU8Dec val = some shift)
    (h1 : 0 < countOnes mask) (h2 : shift + countOnes mask - 1 ≤ 255) :
    stepState (State.findBitFieldShift pname reg mask) ctx line =
      StepRes.next
        (State.checkEnd pname
          { reg with
            bit_fields := reg.bit_fields ++
              [{ defaultBitField with
                 name := nm,
                 bits := if countOnes mask = 1 then Bits.single shift
                         else Bits.range shift (shift + countOnes mask - 1) }] })
        ctx := by
  simp only [stepState, hskip, hcap, hval, Bool.false_eq_true, if_false]
  rw [mkShiftBits_eq mask shift h1 h2]

/-- C5, witness: mask `0x7` (three set bits) and shift constant
`#define FOO_LEN_S 8` yield `BitField{name: "FOO_LEN", bits: Range(8..=10)}`. -/
theorem c5_shift_branch_witness :
    stepState (State.findBitFieldShift (("FOO").data) defaultRegister 7)
      emptyCtx (("#define FOO_LEN_S 8").data) =
    StepRes.next
      (State.checkEnd (("FOO").data)
        { defaultRegister with
          bit_fields := [{ defaultBitField with
                           name := ("FOO_LEN").data,
                           bits := Bits.range 8 10 }] })
      emptyCtx :=
  (c5_shift_branch (("FOO").data) defaultRegister 7 emptyCtx
    (("#define FOO_LEN_S 8").data) (("FOO_LEN").data) (("8").data) 8
    (by decide) (by decide) (by decide) (by decide) (by decide)).trans (by decide)

/-! ## Claim C4 -/

/-- C4, counterexample: the machine happily produces a single-bit field
at index 200 from `#define FOO_F (BIT(200))` (the decimal parse only
checks the `u8` bound 255), the register carrying it is finalized into
the registry, and that field violates the claimed 0..31 invariant. -/
theorem c4_bitfield_out_of_range :
    (runFile c4Lines State.findReg c4SeedCtx).2.peripherals =
      [(("FOO").data,
        { description := ("FOO").data, address := 256,
          registers := [c4Register] })] ∧
    c4Register.bit_fields = [c4Field] ∧
    bitsInvariant c4Field.bits = false := by
  refine ⟨by decide, by decide, by decide⟩

/-- C4, amended: the synthesized full-register field satisfies the full
0..31 invariant; a shift-derived field has ordered endpoints whenever the
mask is non-zero and the range top fits in a `u8`, and its endpoints are
only bounded by the `u8` domain (255, not 31); a parsed single-bit index
is likewise only bounded by 255.  The 0..31 containment is not enforced
by the code. -/
theorem c4_bitfield_bounds :
    bitsInvariant assumeFullRegisterField.bits = true
    ∧ (∀ mask shift, 0 < countOnes mask → shift + countOnes mask - 1 ≤ 255 →
        bitsOrdered (mkShiftBits mask shift) = true ∧
        bitsLe 255 (mkShiftBits mask shift) = true)
    ∧ (∀ v b, parseU8Dec v = some b → bitsLe 255 (Bits.single b) = true) := by
  refine ⟨by decide, ?_, ?_⟩
  · intro mask shift h1 h2
    rw [mkShiftBits_eq mask shift h1 h2]
    by_cases hone : countOnes mask = 1
    · simp [hone, bitsOrdered, bitsLe]
      omega
    · rw [if_neg hone]
      refine ⟨by simp [bitsOrdered]; omega, by simp [bitsLe]; omega⟩
  · intro v b hb
    have := parseUint_le 10 255 v b hb
    simp [bitsLe]
    omega

/-- C4, witness for the amended claim at mask `0x7`, shift 8. -/
theorem c4_bitfield_bounds_witness :
    bitsOrdered (mkShiftBits 7 8) = true ∧ bitsLe 255 (mkShiftBits 7 8) = true :=
  c4_bitfield_bounds.2.1 7 8 (by decide) (by decide)

/-! ## Claim C1 -/

/-- C1, counterexample: in `State::FindReg` the line
`#define SPI_CMD_REG(i) (REG_SPI_BASE(i) + 0x0)` is an indexed register
macro; the general register pattern fails on it, the dedicated indexed
pattern matches with a parsable offset, and the machine builds a Register
stub and moves to `State::FindBitFieldMask` without touching the
rejected-registers collection. -/
theorem c1_indexed_builds_stub :
    stepState State.findReg emptyCtx
      (("#define SPI_CMD_REG(i) (REG_SPI_BASE(i) + 0x0)").data) =
    StepRes.next
      (State.findBitFieldMask (("SPI").data)
        { defaultRegister with
          name := ("SPI_CMD").data,
          description := ("SPI_CMD").data,
          address := 0 })
      emptyCtx := by
  decide

/-- C1, amended: only an indexed macro that happens to be matched by the
general register pattern (its captured name ends in `(i)`) is always
rejected into the rejected-registers collection without producing a
Register; an indexed macro matched by the dedicated indexed pattern with
a parsable offset does produce a Register stub (see the counterexample). -/
theorem c1_suffix_rejected :
    (∀ (ctx : Ctx) (line nm pn off : List Char),
      regDefCaptures line = some (nm, pn, off) →
      (("(i)").data).isSuffixOf nm = true →
      stepState State.findReg ctx line =
        StepRes.next State.findReg
          { ctx with invalid_registers := ctx.invalid_registers ++ [nm] })
    ∧ (∀ (ctx : Ctx) (line nm pn off : List Char) (addr : Nat),
      regDefCaptures line = none →
      regDefIndexCaptures line = some (nm, pn, off) →
      parseHexU32 (trimStart0x off) = some addr →
      stepState State.findReg ctx line =
        StepRes.next
          (State.findBitFieldMask pn
            { defaultRegister with
              name := nm,
              description := nm,
              address := addr }) ctx) := by
  constructor
  · intro ctx line nm pn off hcap hend
    simp only [stepState, hcap, hend, if_true]
  · intro ctx line nm pn off addr hno hcap haddr
    simp only [stepState, hno, hcap, haddr]

/-- C1, witness: a line the general register pattern matches with a
captured name ending in `(i)` is rejected, and an indexed-pattern line
with a parsable offset produces a stub. -/
theorem c1_suffix_rejected_witness :
    (stepState State.findReg emptyCtx
      (("#define FOO(i)_REG (REG_SPI_BASE + 0x4)").data) =
    StepRes.next State.findReg
      { emptyCtx with invalid_registers := [("FOO(i)").data] })
    ∧ (stepState State.findReg emptyCtx
      (("#define UHCI_CONF_REG(i) (REG_UHCI_BASE(i) + 0x8)").data) =
    StepRes.next
      (State.findBitFieldMask (("UHCI").data)
        { defaultRegister with
          name := ("UHCI_CONF").data,
          description := ("UHCI_CONF").data,
          address := 8 }) emptyCtx) :=
  ⟨(c1_suffix_rejected.1 emptyCtx
      (("#define FOO(i)_REG (REG_SPI_BASE + 0x4)").data)
      (("FOO(i)").data) (("SPI").data) (("0x4").data)
      (by decide) (by decide)).trans (by decide),
   c1_suffix_rejected.2 emptyCtx
      (("#define UHCI_CONF_REG(i) (REG_UHCI_BASE(i) + 0x8)").data)
      (("UHCI_CONF").data) (("UHCI").data) (("0x8").data) 8
      (by decide) (by decide) (by decide)⟩

/-! ## Claim C2 -/

/-- C2, counterexample: a register definition whose hexadecimal offset
does not fit in a `u32` does not abort the run.  Processing the file
containing it continues: the register name is recorded in the
rejected-registers diagnostic and a later register of the same file is
still extracted into the registry (partial output). -/
theorem c2_bad_offset_is_diagnostic :
    parseFile (("f").data) c2File emptyCtx = some c2OutCtx ∧
    c2OutCtx.invalid_registers = [("FOO").data] ∧
    parseHexU32 (trimStart0x (("0xFFFFFFFFF").data)) = none := by
  refine ⟨by decide, by decide, by decide⟩

/-- C2, amended: an unparsable hexadecimal literal where a base address
is expected aborts the run (the `unwrap` in `add_base_addr`, modelled as
`none`); an unparsable hexadecimal offset in a matched register
definition is recorded in the rejected-registers diagnostic and the run
continues. -/
theorem c2_base_fatal_offset_diagnostic :
    (∀ ctx line nm pn off,
      regDefCaptures line = some (nm, pn, off) →
      (("(i)").data).isSuffixOf nm = false →
      parseHexU32 (trimStart0x off) = none →
      stepState State.findReg ctx line =
        StepRes.next State.findReg
          { ctx with invalid_registers := ctx.invalid_registers ++ [nm] })
    ∧ (∀ ctx line nm pn off,
      regDefCaptures line = none →
      regDefIndexCaptures line = some (nm, pn, off) →
      parseHexU32 (trimStart0x off) = none →
      stepState State.findReg ctx line =
        StepRes.next State.findReg
          { ctx with invalid_registers := ctx.invalid_registers ++ [nm] })
    ∧ (∀ ctx line nm off,
      regDefCaptures line = none →
      regDefIndexCaptures line = none →
      regDefOffsetCaptures line = some (nm, off) →
      parseHexU32 off = none →
      stepState State.findReg ctx line =
        StepRes.next State.findReg
          { ctx with invalid_registers := ctx.invalid_registers ++ [nm] })
    ∧ addBaseAddr (("#define DR_REG_FOO_BASE 0xFFFFFFFFF").data) [] = none := by
  refine ⟨?_, ?_, ?_, by decide⟩
  · intro ctx line nm pn off hcap hend hoff
    simp only [stepState, hcap, hend, hoff, Bool.false_eq_true, if_false]
  · intro ctx line nm pn off hno hcap hoff
    simp only [stepState, hno, hcap, hoff]
  · intro ctx line nm off hno hni hcap hoff
    simp only [stepState, hno, hni, hcap, hoff]

/-- C2, witness: a plain register definition and an offset-only register
definition, each with an oversized offset, both continue with a
rejected-registers diagnostic. -/
theorem c2_base_fatal_offset_diagnostic_witness :
    (stepState State.findReg emptyCtx
      (("#define FOO_REG (DR_REG_FOO_BASE + 0xFFFFFFFFF)").data) =
    StepRes.next State.findReg
      { emptyCtx with invalid_registers := [("FOO").data] })
    ∧ (stepState State.findReg emptyCtx
      (("#define FOO_BAR_ADDRESS 0xFFFFFFFFF").data) =
    StepRes.next State.findReg
      { emptyCtx with invalid_registers := [("FOO_BAR").data] }) :=
  ⟨(c2_base_fatal_offset_diagnostic.1 emptyCtx
      (("#define FOO_REG (DR_REG_FOO_BASE + 0xFFFFFFFFF)").data)
      (("FOO").data) (("FOO").data) (("0xFFFFFFFFF").data)
      (by decide) (by decide) (by decide)).trans (by decide),
   (c2_base_fatal_offset_diagnostic.2.2.1 emptyCtx
      (("#define FOO_BAR_ADDRESS 0xFFFFFFFFF").data)
      (("FOO_BAR").data) (("FFFFFFFFF").data)
      (by decide) (by decide) (by decide) (by decide)).trans (by decide)⟩

/-! ## Claim C6 -/

/-- C6: entering `State::AssumeFullRegister` appends exactly one BitField
named "Register" spanning bits 0 to 31 to the held register, pushes that
register to its peripheral when the name is in the registry and otherwise
records the name in the unresolved-peripherals diagnostic, transitions to
`State::FindReg`, and re-dispatches the current line (`redo`: the line is
not consumed). -/
theorem c6_assume_full_register (pname : List Char) (reg : Register)
    (ctx : Ctx) (line : List Char) :
    stepState (State.assumeFullRegister pname reg) ctx line =
      StepRes.redo State.findReg
        (if containsKey ctx.peripherals pname then
          { ctx with
            something_found := true,
            peripherals := pushRegister ctx.peripherals pname
              { reg with bit_fields := reg.bit_fields ++ [assumeFullRegisterField] } }
         else
          { ctx with
            something_found := true,
            invalid_peripherals := ctx.invalid_peripherals ++ [pname] })
    ∧ assumeFullRegisterField =
        { name := ("Register").data, bits := Bits.range 0 31,
          type_ := Access.readWrite, reset_value := 0, description := [] } := by
  constructor
  · cases h : containsKey ctx.peripherals pname <;> simp [stepState, h]
  · decide

/-! ## Claim C8 -/

/-- The serialized register size is always 32, so the block-size fold is
32 times the register count, whatever the accumulator. -/
theorem blockSize_fold (l : List Register) :
    ∀ a, (l.map toSvdRegister).foldl (fun sum r => sum + r.size.getD 0) a =
      a + 32 * l.length := by
  induction l with
  | nil => intro a; simp
  | cons x xs ih =>
      intro a
      simp only [List.map_cons, List.foldl_cons, ih, toSvdRegister, List.length_cons,
        Option.getD_some]
      omega

/-- Membership is preserved by sorted insertion. -/
theorem mem_insertSorted (q x : SvdPeripheral) (l : List SvdPeripheral) :
    x ∈ insertSorted q l ↔ x = q ∨ x ∈ l := by
  induction l with
  | nil => simp [insertSorted]
  | cons y ys ih =>
      simp only [insertSorted]
      split
      · simp [or_comm, or_left_comm]
      · simp [ih, or_comm, or_left_comm]

/-- Membership is preserved by the name sort. -/
theorem mem_sortByName (x : SvdPeripheral) (l : List SvdPeripheral) :
    x ∈ sortByName l ↔ x ∈ l := by
  induction l with
  | nil => simp [sortByName]
  | cons y ys ih => simp [sortByName, mem_insertSorted, ih]

/-- C8: every peripheral of the assembled output has an address block at
offset 0 whose size is the flat sum of the serialized register widths,
that is 32 times the number of registers, independently of the registers'
offsets. -/
theorem c8_address_block (regs : Registry) (q : SvdPeripheral)
    (hq : q ∈ createSvdPeripherals regs) :
    q.addressBlock.offset = 0 ∧
    q.addressBlock.size = 32 * q.registers.length := by
  rw [createSvdPeripherals, mem_sortByName] at hq
  rcases List.mem_map.mp hq with ⟨pr, _, rfl⟩
  refine ⟨rfl, ?_⟩
  simp [toSvdPeripheral, blockSize, blockSize_fold, List.length_map]

/-- C8, witness: a two-register peripheral gets a block of size 64 at
offset 0. -/
theorem c8_address_block_witness :
    c8Peripheral.addressBlock.offset = 0 ∧
    c8Peripheral.addressBlock.size = 32 * c8Peripheral.registers.length :=
  c8_address_block c8Registry c8Peripheral (by decide)

/-! ## Claim C7 -/

/-- Appending bindings does not disturb an existing lookup. -/
theorem lookupR_append_some (regs l : Registry) (nm : List Char) (P : Peripheral)
    (h : lookupR regs nm = some P) : lookupR (regs ++ l) nm = some P := by
  induction regs with
  | nil => simp [lookupR] at h
  | cons kp rest ih =>
      rw [List.cons_append, lookupR]
      rw [lookupR] at h
      split at h
      · rw [if_pos (by assumption)]; exact h
      · rw [if_neg (by assumption)]; exact ih h

/-- Appending a binding with a different key keeps a lookup empty. -/
theorem lookupR_append_none (regs : Registry) (k nm : List Char) (P : Peripheral)
    (h : lookupR regs nm = none) (hne : k ≠ nm) :
    lookupR (regs ++ [(k, P)]) nm = none := by
  induction regs with
  | nil => simp [lookupR, hne]
  | cons kp rest ih =>
      rw [List.cons_append, lookupR]
      rw [lookupR] at h
      split at h
      · exact absurd h (by simp)
      · rw [if_neg (by assumption)]; exact ih h

/-- Appending a binding for an absent key makes it the lookup result. -/
theorem lookupR_append_self (regs : Registry) (nm : List Char) (P : Peripheral)
    (h : lookupR regs nm = none) : lookupR (regs ++ [(nm, P)]) nm = some P := by
  induction regs with
  | nil => simp [lookupR]
  | cons kp rest ih =>
      rw [List.cons_append, lookupR]
      rw [lookupR] at h
      split at h
      · exact absurd h (by simp)
      · rw [if_neg (by assumption)]; exact ih h

/-- The base-address fold never modifies an entry that already exists. -/
theorem foldBase_preserves (caps : List (List Char × List Char)) :
    ∀ regs regs2 nm P, foldBase caps regs = some regs2 →
      lookupR regs nm = some P → lookupR regs2 nm = some P := by
  induction caps with
  | nil =>
      intro regs regs2 nm P h hl
      cases h
      exact hl
  | cons c rest ih =>
      intro regs regs2 nm P h hl
      obtain ⟨cn, ca⟩ := c
      rw [foldBase] at h
      split at h
      · exact absurd h (by simp)
      · split at h
        · exact ih regs regs2 nm P h hl
        · exact ih _ regs2 nm P h (lookupR_append_some regs _ nm P hl)

/-- The base-address fold creates an absent entry from the first capture
carrying its name, with description equal to the name and no registers. -/
theorem foldBase_new (caps : List (List Char × List Char)) :
    ∀ regs regs2 nm, foldBase caps regs = some regs2 →
      lookupR regs nm = none →
      lookupR regs2 nm = (firstCapAddr caps nm).map
        (fun a => { description := nm, address := a, registers := [] }) := by
  induction caps with
  | nil =>
      intro regs regs2 nm h hl
      cases h
      simpa [firstCapAddr] using hl
  | cons c rest ih =>
      intro regs regs2 nm h hl
      obtain ⟨cn, ca⟩ := c
      rw [foldBase] at h
      split at h
      · exact absurd h (by simp)
      · rename_i addr hp
        by_cases hcn : cn = nm
        · subst hcn
          rw [if_neg (by simp [containsKey, hl])] at h
          have h2 := foldBase_preserves rest _ regs2 cn
            { description := cn, address := addr, registers := [] } h
            (lookupR_append_self regs cn _ hl)
          simp only [firstCapAddr, if_pos rfl, hp, Option.map_some]
          exact h2
        · simp only [firstCapAddr, if_neg hcn]
          split at h
          · exact ih regs regs2 nm h hl
          · exact ih _ regs2 nm h (lookupR_append_none regs cn nm _ hl hcn)

/-- C7: `add_base_addr` never modifies an existing registry entry — an
entry present before the scan is unchanged after it — and a name that was
absent is inserted from the first `REG_BASE` capture that defines it,
with the address of that first capture, description equal to the name and
an empty register list. -/
theorem c7_first_wins (text : List Char) (regs regs2 : Registry) (nm : List Char)
    (h : addBaseAddr text regs = some regs2) :
    (∀ P, lookupR regs nm = some P → lookupR regs2 nm = some P)
    ∧ (lookupR regs nm = none →
        lookupR regs2 nm = (firstCapAddr (baseCaptures text) nm).map
          (fun a => { description := nm, address := a, registers := [] })) :=
  ⟨fun P hP => foldBase_preserves (baseCaptures text) regs regs2 nm P h hP,
   fun hn => foldBase_new (baseCaptures text) regs regs2 nm h hn⟩

/-- C7, witness: `FOO` seeded at `0x60000200`; a later file defining
`FOO` at `0x12345678` leaves the entry untouched. -/
theorem c7_first_wins_witness :
    lookupR c7SeedRegs (("FOO").data) =
      some { description := ("FOO").data, address := 1610613248, registers := [] } :=
  (c7_first_wins c7FileB c7SeedRegs c7SeedRegs (("FOO").data) (by decide)).1
    { description := ("FOO").data, address := 1610613248, registers := [] }
    (by decide)

/-- Structural form of per-file processing: the output is computed from
the context component of the line fold alone (plus the
`something_found` bookkeeping); the final machine state is discarded. -/
theorem parseFile_eq (fname text : List Char) (ctx : Ctx) :
    parseFile fname text ctx =
      (addBaseAddr (normalize text) ctx.peripherals).map (fun regs =>
        let ctx2 := (runFile (splitLines (normalize text)) State.findReg
          { ctx with peripherals := regs, something_found := false }).2
        if ctx2.something_found then ctx2
        else { ctx2 with invalid_files := ctx2.invalid_files ++ [fname] }) := by
  unfold parseFile
  cases hb : addBaseAddr (normalize text) ctx.peripherals <;> rfl

/-! ## Claim C9 -/

/-- C9: a file's output context is computed solely from the line fold —
the machine state left at the end of the file, with any in-flight
register, is dropped, and each file starts again in `State::FindReg`
(first conjunct, the structural equation).  Concretely (remaining
conjuncts): `c9FileA` ends with a register carrying one field still in
flight in `State::FindBitFieldSkipShift`; running the two-file pipeline
appends nothing to `FOO`, records nothing in any diagnostic collection,
and still processes `c9FileB` normally from `State::FindReg`. -/
theorem c9_inflight_register_dropped :
    (∀ fname text ctx,
      parseFile fname text ctx =
        (addBaseAddr (normalize text) ctx.peripherals).map (fun regs =>
          let ctx2 := (runFile (splitLines (normalize text)) State.findReg
            { ctx with peripherals := regs, something_found := false }).2
          if ctx2.something_found then ctx2
          else { ctx2 with invalid_files := ctx2.invalid_files ++ [fname] }))
    ∧ (runFile (splitLines (normalize c9FileA)) State.findReg c9SeedCtx).1 =
        State.findBitFieldSkipShift (("FOO").data) c9Inflight
    ∧ c9Inflight.bit_fields ≠ []
    ∧ parseIdf c9SocText [((("a").data), c9FileA), ((("b").data), c9FileB)] =
        some c9OutCtx
    ∧ (∀ pr ∈ c9OutCtx.peripherals, c9Inflight ∉ pr.2.registers)
    ∧ c9OutCtx.invalid_peripherals = [] ∧ c9OutCtx.invalid_registers = []
    ∧ c9OutCtx.invalid_files = [] := by
  exact ⟨parseFile_eq, by decide, by decide, by decide, by decide,
    by decide, by decide, by decide⟩

/-! ## Claim C10 -/

/-- Pushing a register with at least one field preserves registry
goodness. -/
theorem goodRegs_push : ∀ (regs : Registry) (nm : List Char) (r : Register),
    goodRegs regs → r.bit_fields ≠ [] → goodRegs (pushRegister regs nm r) := by
  intro regs
  induction regs with
  | nil => intro nm r _ _ pr hm; cases hm
  | cons kp rest ih =>
      intro nm r h hr
      obtain ⟨k, p⟩ := kp
      have hhead := h (k, p) (by simp)
      have htail : goodRegs rest := fun pr hm => h pr (by simp [hm])
      rw [pushRegister]
      split
      · intro pr hm rr hrr
        rcases List.mem_cons.mp hm with rfl | hm2
        · rcases List.mem_append.mp hrr with h1 | h2
          · exact hhead rr h1
          · simp only [List.mem_singleton] at h2; subst h2; exact hr
        · exact htail pr hm2 rr hrr
      · intro pr hm rr hrr
        rcases List.mem_cons.mp hm with rfl | hm2
        · exact hhead rr hrr
        · exact ih nm r htail hr pr hm2 rr hrr

/-- Appending a register-less peripheral preserves registry goodness. -/
theorem goodRegs_append_empty (regs : Registry) (nm : List Char) (P : Peripheral)
    (h : goodRegs regs) (hp : P.registers = []) : goodRegs (regs ++ [(nm, P)]) := by
  intro pr hm r hr
  rcases List.mem_append.mp hm with hm1 | hm2
  · exact h pr hm1 r hr
  · simp only [List.mem_singleton] at hm2
    subst hm2
    rw [hp] at hr
    cases hr

/-- The base-address scan preserves registry goodness (it only inserts
register-less peripherals). -/
theorem foldBase_good (caps : List (List Char × List Char)) :
    ∀ regs regs2, foldBase caps regs = some regs2 → goodRegs regs →
      goodRegs regs2 := by
  induction caps with
  | nil => intro regs regs2 h hg; cases h; exact hg
  | cons c rest ih =>
      intro regs regs2 h hg
      obtain ⟨cn, ca⟩ := c
      rw [foldBase] at h
      split at h
      · exact absurd h (by simp)
      · split at h
        · exact ih _ _ h hg
        · exact ih _ _ h (goodRegs_append_empty _ _ _ hg rfl)

/-- One dispatch preserves registry goodness and the machine-state
invariant. -/
theorem step_good (st : State) (ctx : Ctx) (line : List Char)
    (hc : goodRegs ctx.peripherals) (hs : goodState st) :
    goodRegs ((stepState st ctx line).cx).peripherals ∧
    goodState ((stepState st ctx line).st) := by
  cases st with
  | findReg =>
      simp only [stepState]
      repeat' split
      all_goals exact ⟨hc, trivial⟩
  | assumeFullRegister pname reg =>
      simp only [stepState]
      split
      · exact ⟨goodRegs_push _ _ _ hc (by simp), trivial⟩
      · exact ⟨hc, trivial⟩
  | findBitFieldMask pname reg =>
      simp only [stepState]
      repeat' split
      all_goals first
        | exact ⟨hc, trivial⟩
        | (refine ⟨hc, ?_⟩
           simp [StepRes.st, goodState]
           done)
        | (rename_i hne
           refine ⟨hc, ?_⟩
           simp only [StepRes.st, goodState]
           intro hnil
           exact hne (by simp [hnil]))
  | findBitFieldShift pname reg mask =>
      simp only [stepState]
      repeat' split
      all_goals first
        | exact ⟨hc, trivial⟩
        | (refine ⟨hc, ?_⟩
           simp [StepRes.st, goodState]
           done)
        | (rename_i hne
           refine ⟨hc, ?_⟩
           simp only [StepRes.st, goodState]
           intro hnil
           exact hne (by simp [hnil]))
  | findBitFieldSkipShift pname reg =>
      simp only [stepState]
      split
      · exact ⟨hc, hs⟩
      · exact ⟨hc, hs⟩
  | checkEnd pname reg =>
      simp only [stepState]
      repeat' split
      all_goals first
        | exact ⟨hc, hs⟩
        | exact ⟨hc, trivial⟩
  | regEnd pname reg =>
      simp only [stepState]
      split
      · exact ⟨goodRegs_push _ _ _ hc hs, trivial⟩
      · exact ⟨hc, trivial⟩

/-- The inner loop preserves registry goodness and the state invariant. -/
theorem runLineAux_good : ∀ (fuel : Nat) (st : State) (ctx : Ctx)
    (line : List Char), goodRegs ctx.peripherals → goodState st →
    goodRegs ((runLineAux fuel st ctx line).2).peripherals ∧
    goodState ((runLineAux fuel st ctx line).1) := by
  intro fuel
  induction fuel with
  | zero => intro st ctx line hc hs; exact ⟨hc, hs⟩
  | succ n ih =>
      intro st ctx line hc hs
      have h := step_good st ctx line hc hs
      rw [runLineAux]
      cases hst : stepState st ctx line with
      | next st2 ctx2 => rw [hst] at h; exact h
      | redo st2 ctx2 => rw [hst] at h; exact ih st2 ctx2 line h.1 h.2

/-- The per-file loop preserves registry goodness. -/
theorem runFile_good : ∀ (lines : List (List Char)) (st : State) (ctx : Ctx),
    goodRegs ctx.peripherals → goodState st →
    goodRegs ((runFile lines st ctx).2).peripherals ∧
    goodState ((runFile lines st ctx).1) := by
  intro lines
  induction lines with
  | nil => intro st ctx hc hs; exact ⟨hc, hs⟩
  | cons l ls ih =>
      intro st ctx hc hs
      rw [runFile, List.foldl_cons]
      by_cases hif : ifdefMatch l
      · have := ih st ctx hc hs
        simpa [runFileStep, hif, runFile] using this
      · by_cases hen : endifMatch l
        · have := ih st ctx hc hs
          simpa [runFileStep, hif, hen, runFile] using this
        · have hq := runLineAux_good 8 st ctx l hc hs
          have := ih (runLine st ctx l).1 (runLine st ctx l).2 hq.1 hq.2
          simpa [runFileStep, hif, hen, runFile] using this

/-- Per-file processing preserves registry goodness. -/
theorem parseFile_good (fname text : List Char) (ctx out : Ctx)
    (h : parseFile fname text ctx = some out) (hc : goodRegs ctx.peripherals) :
    goodRegs out.peripherals := by
  rw [parseFile_eq, Option.map_eq_some'] at h
  obtain ⟨regs, hb, hout⟩ := h
  have hg : goodRegs regs := foldBase_good _ _ _ hb hc
  have h2 := runFile_good (splitLines (normalize text)) State.findReg
    { ctx with peripherals := regs, something_found := false }
    (by simpa using hg) trivial
  subst hout
  by_cases hf : ((runFile (splitLines (normalize text)) State.findReg
      { ctx with peripherals := regs, something_found := false }).2).something_found
  · simpa [hf] using h2.1
  · simpa [hf] using h2.1

/-- A dead accumulator stays dead across the file fold. -/
theorem parseFilesStep_none (files : List (List Char × List Char)) :
    files.foldl parseFilesStep none = none := by
  induction files with
  | nil => rfl
  | cons f fs ih => rw [List.foldl_cons]; exact ih

/-- C10: every register that the pipeline ever attaches to a peripheral
carries at least one bit field — `State::AssumeFullRegister` synthesizes
one itself, and `State::End` is only reachable holding a register that
already received one. -/
theorem c10_registers_have_fields (socText : List Char)
    (files : List (List Char × List Char)) (out : Ctx)
    (h : parseIdf socText files = some out) :
    ∀ pr ∈ out.peripherals, ∀ r ∈ pr.2.registers, r.bit_fields ≠ [] := by
  have main : ∀ (fs : List (List Char × List Char)) (c : Ctx),
      goodRegs c.peripherals → fs.foldl parseFilesStep (some c) = some out →
      goodRegs out.peripherals := by
    intro fs
    induction fs with
    | nil => intro c hg hh; cases hh; exact hg
    | cons f rest ih =>
        intro c hg hh
        rw [List.foldl_cons] at hh
        cases hp : parseFile f.1 f.2 c with
        | none =>
            rw [show parseFilesStep (some c) f = parseFile f.1 f.2 c from rfl,
              hp, parseFilesStep_none] at hh
            exact absurd hh (by simp)
        | some c2 =>
            rw [show parseFilesStep (some c) f = parseFile f.1 f.2 c from rfl,
              hp] at hh
            exact ih c2 (parseFile_good _ _ _ _ hp hg) hh
  unfold parseIdf at h
  split at h
  · exact absurd h (by simp)
  · rename_i regs hb
    have hg : goodRegs regs := foldBase_good _ _ _ hb (by simp [goodRegs])
    exact main files _ (by simpa using hg) h

/-- C10, witness: the register of the `c10Soc`/`c10File` run carries a
field. -/
theorem c10_registers_have_fields_witness : c10Register.bit_fields ≠ [] :=
  c10_registers_have_fields c10Soc [((("q").data), c10File)] c10OutCtx
    (by decide) ((("QUX").data), c10Peripheral) (by decide) c10Register
    (by decide)

end Idf2Svd


